import Mathlib

/-!
Shallow embedding of the HackUDC TV kiosk view (`src/app/routes/tv.tsx`):
the countdown formatter, the schedule classifier, active-index selection,
the visible-window derivation, the poll aggregation, sponsor partitioning
and the asset-URL resolver, together with theorems settling the spec's
claims about them.

Conventions of the embedding:
* A JavaScript timestamp (`Date.getTime()`, milliseconds since the epoch)
  is an `Int`.  A `Date` value that may be invalid (`NaN`) is an
  `Option Int`, `none` standing for an invalid date; this is used where
  the source checks `Number.isNaN` explicitly.  Schedule items carry
  their parsed timestamps directly, since every claim quantifies over
  parsed values.
* A rejected promise absorbed by a `.catch` handler is modelled by an
  explicit constructor of the settled outcome.
-/

namespace HackUDC

inductive SponsorLevel
  | root
  | admin
  | user
  | collaborator
deriving DecidableEq, Repr

structure Sponsor where
  id : Int
  name : String
  level : SponsorLevel
  link : String
  logo : String
deriving DecidableEq, Repr

/-- A raw schedule record.  `start` and `«end»` are the parsed millisecond
timestamps of the backend's datetime strings (`new Date(item.start).getTime()`
and `new Date(item.end).getTime()`). -/
structure ScheduleItem where
  id : Int
  title : String
  start : Int
  «end» : Int
  location : String
  tags : List String
  description : Option String
deriving DecidableEq, Repr

structure WifiInfo where
  id : Int
  ssid : String
  password : String
deriving DecidableEq, Repr

/-- The hacking window singleton.  `start`/`«end»` are the parse results of
the backend's datetime strings: `none` models a string for which
`new Date(s).getTime()` is `NaN`, which `formatCountdown` checks explicitly. -/
structure HackingTime where
  id : Int
  start : Option Int
  «end» : Option Int
deriving DecidableEq, Repr

structure AnnouncementInfo where
  id : Int
  content : Option String
  visible : Bool
deriving DecidableEq, Repr

structure TvData where
  sponsors : List Sponsor
  schedule : List ScheduleItem
  wifi : Option WifiInfo
  hacking : Option HackingTime
  announcement : Option AnnouncementInfo
deriving DecidableEq, Repr

/-- JavaScript `s.padStart(2, '0')`: prepend `'0'` until the string has length 2. -/
def padStart2 (s : String) : String :=
  String.mk (List.replicate (2 - s.length) '0') ++ s

/-- The function `formatCountdown` from `src/app/routes/tv.tsx` (lines 115-146).
`hacking = none` or `now = none` models a missing window / missing current
time; a `none` endpoint models an endpoint whose parse is `NaN`.  The JS
`Math.max(0, Math.floor(diffMs / 1000))` is `(max 0 (diffMs.fdiv 1000)).toNat`
(`Math.floor` on a real quotient is floor division); the subsequent
divisions and remainders act on that non-negative count of seconds. -/
def formatCountdown (hacking : Option HackingTime) (now : Option Int) : String :=
  match hacking, now with
  | none, _ => "--:--:--"
  | _, none => "--:--:--"
  | some h, some n =>
    match h.start, h.«end» with
    | none, _ => "--:--:--"
    | _, none => "--:--:--"
    | some s, some e =>
      if n < s then
        "36:00:00"
      else if e ≤ n then
        "00:00:00"
      else
        let diffMs : Int := e - n
        let totalSeconds : Nat := (max 0 (diffMs.fdiv 1000)).toNat
        let hours := totalSeconds / 3600
        let minutes := (totalSeconds % 3600) / 60
        let seconds := totalSeconds % 60
        let hh := padStart2 (toString hours)
        let mm := padStart2 (toString minutes)
        let ss := padStart2 (toString seconds)
        hh ++ ":" ++ mm ++ ":" ++ ss

/-- The spec's words for countdown rule 4: a number of remaining seconds
decomposed into zero-padded `HH:MM:SS`, hours unbounded. -/
def specCountdownHMS (totalSeconds : Nat) : String :=
  padStart2 (toString (totalSeconds / 3600)) ++ ":" ++
    padStart2 (toString ((totalSeconds % 3600) / 60)) ++ ":" ++
    padStart2 (toString (totalSeconds % 60))

example : formatCountdown none (some 0) = "--:--:--" := by decide
example : formatCountdown (some ⟨1, some 36000000, some 165600000⟩) (some 39723000) = "34:57:57" := by decide
example : formatCountdown (some ⟨1, some 36000000, some 165600000⟩) (some 35000000) = "36:00:00" := by decide
example : formatCountdown (some ⟨1, some 36000000, some 165600000⟩) (some 165600000) = "00:00:00" := by decide

inductive ScheduleItemStatus
  | past
  | live
  | upcoming
deriving DecidableEq, Repr

structure TimedScheduleItem extends ScheduleItem where
  startDate : Int
  endDate : Int
  status : ScheduleItemStatus
deriving DecidableEq, Repr

/-- The arrow function inside `buildTimedSchedule`'s `.map`
(`src/app/routes/tv.tsx` lines 158-170), extracted under a name so that
statements can speak about single mapped items. -/
def timeScheduleItem (now : Option Int) (item : ScheduleItem) : TimedScheduleItem :=
  let startDate := item.start
  let endDate := item.«end»
  let status : ScheduleItemStatus :=
    match now with
    | none => .upcoming
    | some n =>
      if endDate ≤ n then .past
      else if startDate ≤ n ∧ n < endDate then .live
      else .upcoming
  { toScheduleItem := item, startDate := startDate, endDate := endDate,
    status := status }

/-- The function `buildTimedSchedule` from `src/app/routes/tv.tsx` (lines 156-172): map
each raw item to a timed item carrying its parsed dates and its status
relative to `now` (`upcoming` when `now` is `null`), then sort ascending by
`startDate` with JavaScript's stable `Array.prototype.sort` under the
comparator `a.startDate - b.startDate`, i.e. a stable sort by
`a.startDate ≤ b.startDate`. -/
def buildTimedSchedule (schedule : List ScheduleItem) (now : Option Int) :
    List TimedScheduleItem :=
  (schedule.map (timeScheduleItem now)).mergeSort
    (fun a b => decide (a.startDate ≤ b.startDate))

/-- The spec's words for the status rule: `now >= end → past`,
`start <= now < end → live`, else `upcoming`; all `upcoming` when `now`
is unavailable (`n ≥ endDate` is written `endDate ≤ n`). -/
def specStatus (startDate endDate : Int) (now : Option Int) : ScheduleItemStatus :=
  match now with
  | none => .upcoming
  | some n =>
    if endDate ≤ n then .past
    else if startDate ≤ n ∧ n < endDate then .live
    else .upcoming

/-- The function `getActiveScheduleIndex` from `src/app/routes/tv.tsx` (lines 174-184).
The source guard `!items.length || !now` is split into the `now` match and
the emptiness test. -/
def getActiveScheduleIndex (items : List TimedScheduleItem) (now : Option Int) : Int :=
  match now with
  | none => -1
  | some n =>
    if items.isEmpty then -1
    else
      match items.findIdx? (fun item => item.status == .live) with
      | some liveIndex => (liveIndex : Int)
      | none =>
        match items.findIdx? (fun item => decide (n < item.startDate)) with
        | some upcomingIndex => (upcomingIndex : Int)
        | none => (items.length : Int) - 1

/-- The visible-window derivation of `ScheduleList`
(`src/app/routes/tv.tsx` lines 306-307): `findIndex` of the first item whose
status is not `past` (`-1`, i.e. `none`, when all are past), then `slice`
from there. -/
def visibleItems (items : List TimedScheduleItem) : List TimedScheduleItem :=
  match items.findIdx? (fun item => item.status != .past) with
  | none => []
  | some firstVisibleIndex => items.drop firstVisibleIndex

/-- The settled outcome of one of the five requests of `fetchTvData`:
`err` models a rejected promise (absorbed by the request's `.catch`
handler), `ok v` a fulfilled one whose value `v` may still be null
(`none`), guarded downstream by `?? default`. -/
inductive FetchResult (α : Type)
  | ok (value : Option α)
  | err
deriving DecidableEq, Repr

/-- The function `fetchTvData` from `src/app/routes/tv.tsx` (lines 88-104), as a function
of the five settled request outcomes.  Each rejection is replaced by the
`.catch` default (`[]` for the two collections, `null` for the three
singletons); the final object additionally applies `?? []` / `?? null` to
each settled value.  For the singletons `v ?? null` is the identity on
`Option`. -/
def fetchTvData
    (sponsors : FetchResult (List Sponsor))
    (schedule : FetchResult (List ScheduleItem))
    (wifi : FetchResult WifiInfo)
    (hacking : FetchResult HackingTime)
    (announcement : FetchResult AnnouncementInfo) : TvData :=
  let sponsorsSettled : Option (List Sponsor) :=
    match sponsors with
    | .ok v => v
    | .err => some []
  let scheduleSettled : Option (List ScheduleItem) :=
    match schedule with
    | .ok v => v
    | .err => some []
  let wifiSettled : Option WifiInfo :=
    match wifi with
    | .ok v => v
    | .err => none
  let hackingSettled : Option HackingTime :=
    match hacking with
    | .ok v => v
    | .err => none
  let announcementSettled : Option AnnouncementInfo :=
    match announcement with
    | .ok v => v
    | .err => none
  { sponsors := sponsorsSettled.getD []
    schedule := scheduleSettled.getD []
    wifi := wifiSettled
    hacking := hackingSettled
    announcement := announcementSettled }

/-- The all-defaults snapshot, which is also the initial `data` state of the
`Tv` component. -/
def emptyTvData : TvData :=
  { sponsors := [], schedule := [], wifi := none, hacking := none,
    announcement := none }

/-- The state of the `Tv` component touched by one `load` cycle. -/
structure TvState where
  data : TvData
  isLoading : Bool
deriving DecidableEq, Repr

/-- One `load` cycle of the `Tv` effect (`src/app/routes/tv.tsx`
lines 198-225).  `outcome` is how `await fetchTvData()` settles: `.ok next`
when it fulfils with snapshot `next`, `.error ()` when it throws (only an
exception during aggregation can cause this, since every per-resource
rejection is absorbed).  Returns the new state together with whether the
`console.error` branch ran. -/
def loadCycle (st : TvState) (cancelled : Bool) (outcome : Except Unit TvData) :
    TvState × Bool :=
  match outcome with
  | .ok next =>
    (if cancelled then st else { data := next, isLoading := false }, false)
  | .error _ =>
    (if cancelled then st else { st with isLoading := false }, true)

/-- How `await fetchTvData()` settles when all five requests themselves
settle with the given outcomes: every rejection is absorbed by its `.catch`
handler, so the aggregate promise always fulfils. -/
def pollOutcome
    (sponsors : FetchResult (List Sponsor))
    (schedule : FetchResult (List ScheduleItem))
    (wifi : FetchResult WifiInfo)
    (hacking : FetchResult HackingTime)
    (announcement : FetchResult AnnouncementInfo) : Except Unit TvData :=
  .ok (fetchTvData sponsors schedule wifi hacking announcement)

/-- The derivation `mainSponsor` from `src/app/routes/tv.tsx` (line 230):
`sponsors.find(s => s.level === 'root') ?? null`. -/
def mainSponsor (sponsors : List Sponsor) : Option Sponsor :=
  sponsors.find? (fun s => s.level == .root)

/-- The derivation `secondarySponsors` (line 231): `sponsors.filter(s => s.level === 'admin')`. -/
def secondarySponsors (sponsors : List Sponsor) : List Sponsor :=
  sponsors.filter (fun s => s.level == .admin)

/-- The derivation `thirdTierSponsors` (line 232): `sponsors.filter(s => s.level === 'user')`. -/
def thirdTierSponsors (sponsors : List Sponsor) : List Sponsor :=
  sponsors.filter (fun s => s.level == .user)

/-- The derivation `collaboratorSponsors` (line 233): `sponsors.filter(s => s.level === 'collaborator')`. -/
def collaboratorSponsors (sponsors : List Sponsor) : List Sponsor :=
  sponsors.filter (fun s => s.level == .collaborator)

/-- JavaScript `DIRECTUS_URL.replace(/\/$/, '')`: remove one trailing slash if present. -/
def stripTrailingSlash (s : String) : String :=
  if s.data.getLast? = some '/' then String.mk s.data.dropLast else s

/-- Split a character list at the first `"://"`, returning the part before
(the scheme) and the part after; `none` if `"://"` does not occur. -/
def splitScheme : List Char → Option (List Char × List Char)
  | [] => none
  | ':' :: '/' :: '/' :: rest => some ([], rest)
  | c :: rest => (splitScheme rest).map (fun p => (c :: p.1, p.2))

/-- Model of the browser's WHATWG `new URL(input, base)` constructor,
restricted to what `getAssetUrl` exercises: a path-absolute `input`
(starting with `/`) resolved against a hierarchical `scheme://host...`
base.  The result replaces the base's path with `input`; `none` models the
constructor throwing (base not of that shape).  Ports, userinfo and other
details of full URL parsing are outside what the claims exercise. -/
def newURL (input base : String) : Option String :=
  match splitScheme base.data with
  | none => none
  | some (scheme, rest) =>
    if scheme = [] then none
    else
      let host := rest.takeWhile (fun c => c ≠ '/')
      if host = [] then none
      else some (String.mk scheme ++ "://" ++ String.mk host ++ input)

/-- The function `getAssetUrl` from `src/app/routes/tv.tsx` (lines 64-72), with the
configured base URL (`DIRECTUS_URL`) passed explicitly.  `id = none` models
an absent identifier; `!id` in JS is also true of the empty string. -/
def getAssetUrl (directusUrl : String) (id : Option String) : String :=
  match id with
  | none => ""
  | some i =>
    if i = "" then ""
    else
      match newURL ("/assets/" ++ i) directusUrl with
      | some url => url
      | none => stripTrailingSlash directusUrl ++ "/assets/" ++ i

example : getAssetUrl "https://cms.example/" (some "abc") = "https://cms.example/assets/abc" := by decide
example : getAssetUrl "not a url" (some "abc") = "not a url/assets/abc" := by decide
example : getAssetUrl "https://cms.example/" none = "" := by decide

/-! ## Theorems -/

/-- For a positive millisecond difference, JavaScript's
`Math.max(0, Math.floor(diffMs / 1000))` is the truncating natural
division `diffMs.toNat / 1000`. -/
theorem max_zero_fdiv_thousand_toNat {d : Int} (hd : 0 < d) :
    (max 0 (d.fdiv 1000)).toNat = d.toNat / 1000 := by
  rw [Int.fdiv_eq_ediv _ (by norm_num : (0 : Int) ≤ 1000)]
  have h0 : 0 ≤ d / 1000 := Int.ediv_nonneg (le_of_lt hd) (by norm_num)
  rw [max_eq_right h0]
  omega

/-- C1.  The countdown formatter obeys the spec's rules in priority
order: a missing window, missing current time, or unparseable endpoint
yields `"--:--:--"`; `now < start` yields `"36:00:00"`; `now ≥ end` yields
`"00:00:00"`; otherwise the result is `floor((end - now)/1000)` seconds
decomposed into zero-padded `HH:MM:SS` with unbounded hours; and at
`start = 10:00:00`, `end = start + 36h`, `now = start + 1h2m3s` the result
is `"34:57:57"`. -/
theorem formatCountdown_spec :
    (∀ now, formatCountdown none now = "--:--:--") ∧
    (∀ hacking, formatCountdown hacking none = "--:--:--") ∧
    (∀ h n, h.start = none ∨ h.«end» = none →
      formatCountdown (some h) (some n) = "--:--:--") ∧
    (∀ h s e n, h.start = some s → h.«end» = some e → n < s →
      formatCountdown (some h) (some n) = "36:00:00") ∧
    (∀ h s e n, h.start = some s → h.«end» = some e → s ≤ n → e ≤ n →
      formatCountdown (some h) (some n) = "00:00:00") ∧
    (∀ h s e n, h.start = some s → h.«end» = some e → s ≤ n → n < e →
      formatCountdown (some h) (some n) = specCountdownHMS ((e - n).toNat / 1000)) ∧
    formatCountdown (some ⟨1, some 36000000, some 165600000⟩) (some 39723000) = "34:57:57" := by
  refine ⟨fun now => by cases now <;> rfl, fun hacking => ?_, ?_, ?_, ?_, ?_, by decide⟩
  · cases hacking <;> rfl
  · intro h n hor
    obtain ⟨i, st, en⟩ := h
    cases st with
    | none => cases en <;> rfl
    | some s =>
      cases en with
      | none => rfl
      | some e => rcases hor with h1 | h1 <;> simp at h1
  · intro h s e n hs he hlt
    obtain ⟨i, st, en⟩ := h
    simp only at hs he
    subst hs
    subst he
    simp [formatCountdown, hlt]
  · intro h s e n hs he hsn hen
    obtain ⟨i, st, en⟩ := h
    simp only at hs he
    subst hs
    subst he
    simp [formatCountdown, not_lt.2 hsn, hen]
  · intro h s e n hs he hsn hne
    obtain ⟨i, st, en⟩ := h
    simp only at hs he
    subst hs
    subst he
    simp only [formatCountdown, not_lt.2 hsn, if_false, not_le.2 hne,
      if_neg (not_lt.2 hsn), if_neg (not_le.2 hne)]
    rw [max_zero_fdiv_thousand_toNat (by omega)]
    rfl

/-- Concrete instances of `formatCountdown_spec`: the pre-start, post-end
and midpoint rules at explicit inputs. -/
theorem formatCountdown_spec_witness :
    formatCountdown (some ⟨1, some 100, some 200⟩) (some 50) = "36:00:00" ∧
    formatCountdown (some ⟨1, some 100, some 200⟩) (some 200) = "00:00:00" ∧
    formatCountdown (some ⟨1, some 100, some 200000⟩) (some 100) =
      specCountdownHMS ((200000 - 100 : Int).toNat / 1000) :=
  ⟨formatCountdown_spec.2.2.2.1 ⟨1, some 100, some 200⟩ 100 200 50 rfl rfl (by decide),
   formatCountdown_spec.2.2.2.2.1 ⟨1, some 100, some 200⟩ 100 200 200 rfl rfl
     (by decide) (by decide),
   formatCountdown_spec.2.2.2.2.2.1 ⟨1, some 100, some 200000⟩ 100 200000 100 rfl rfl
     (by decide) (by decide)⟩

/-- Membership in the classifier's output is membership in the mapped
input. -/
theorem mem_buildTimedSchedule {schedule : List ScheduleItem} {now : Option Int}
    {t : TimedScheduleItem} (ht : t ∈ buildTimedSchedule schedule now) :
    ∃ item ∈ schedule, t = timeScheduleItem now item := by
  unfold buildTimedSchedule at ht
  rw [List.mem_mergeSort] at ht
  obtain ⟨item, hitem, rfl⟩ := List.mem_map.1 ht
  exact ⟨item, hitem, rfl⟩

/-- C2.  Every item of the classifier's output carries the status that
is the pure function of `(parsed start, parsed end, now)` stated by the
spec (`now ≥ end → past`; `start ≤ now < end → live`; else `upcoming`),
and with `now` unavailable every item's status is `upcoming`. -/
theorem buildTimedSchedule_status :
    (∀ schedule now, ∀ t ∈ buildTimedSchedule schedule now,
      t.status = specStatus t.startDate t.endDate now) ∧
    (∀ schedule, ∀ t ∈ buildTimedSchedule schedule none,
      t.status = .upcoming) := by
  have key : ∀ schedule now, ∀ t ∈ buildTimedSchedule schedule now,
      t.status = specStatus t.startDate t.endDate now := by
    intro schedule now t ht
    obtain ⟨item, _, rfl⟩ := mem_buildTimedSchedule ht
    cases now <;> rfl
  exact ⟨key, fun schedule t ht => key schedule none t ht⟩

/-- Concrete instance of `buildTimedSchedule_status` on a one-item
schedule. -/
theorem buildTimedSchedule_status_witness :
    (timeScheduleItem (some 5) ⟨1, "Opening", 0, 10, "Hall", [], none⟩).status =
      specStatus
        (timeScheduleItem (some 5) ⟨1, "Opening", 0, 10, "Hall", [], none⟩).startDate
        (timeScheduleItem (some 5) ⟨1, "Opening", 0, 10, "Hall", [], none⟩).endDate
        (some 5) :=
  buildTimedSchedule_status.1 [⟨1, "Opening", 0, 10, "Hall", [], none⟩] (some 5) _
    (by simp [buildTimedSchedule])

/-- C3.  For every input list and every current time, the classifier's
output is sorted ascending by parsed start timestamp. -/
theorem buildTimedSchedule_sorted :
    ∀ schedule now, (buildTimedSchedule schedule now).Pairwise
      (fun a b => a.startDate ≤ b.startDate) := by
  intro schedule now
  unfold buildTimedSchedule
  refine List.Pairwise.imp ?_ (List.sorted_mergeSort ?_ ?_ _)
  · intro a b hab
    simpa using hab
  · intro a b c h1 h2
    simp only [decide_eq_true_eq] at h1 h2 ⊢
    omega
  · intro a b
    simpa using Int.le_total a.startDate b.startDate

/-- C10.  Classification is frame-preserving: projecting the derived
fields away, the output is a permutation of the input (same length, no
record dropped, duplicated or modified), and each output record's derived
`startDate`/`endDate` are exactly its record's parsed `start`/`end`. -/
theorem buildTimedSchedule_frame :
    ∀ schedule now,
      ((buildTimedSchedule schedule now).map
        (fun t => t.toScheduleItem)).Perm schedule ∧
      (buildTimedSchedule schedule now).length = schedule.length ∧
      ∀ t ∈ buildTimedSchedule schedule now,
        t.startDate = t.toScheduleItem.start ∧
        t.endDate = t.toScheduleItem.«end» := by
  intro schedule now
  refine ⟨?_, ?_, ?_⟩
  · have hp := (List.mergeSort_perm (schedule.map (timeScheduleItem now))
      (fun a b => decide (a.startDate ≤ b.startDate))).map
      (fun t => t.toScheduleItem)
    rw [List.map_map] at hp
    have hid : ((fun t : TimedScheduleItem => t.toScheduleItem) ∘
        timeScheduleItem now) = fun item => item := rfl
    rw [hid, List.map_id'] at hp
    exact hp
  · simp [buildTimedSchedule]
  · intro t ht
    obtain ⟨item, _, rfl⟩ := mem_buildTimedSchedule ht
    exact ⟨rfl, rfl⟩

/-- Concrete instance of `buildTimedSchedule_frame`'s per-item field
preservation on a one-item schedule. -/
theorem buildTimedSchedule_frame_witness :
    (timeScheduleItem (some 5) ⟨1, "Opening", 0, 10, "Hall", [], none⟩).startDate =
      (timeScheduleItem (some 5)
        ⟨1, "Opening", 0, 10, "Hall", [], none⟩).toScheduleItem.start ∧
    (timeScheduleItem (some 5) ⟨1, "Opening", 0, 10, "Hall", [], none⟩).endDate =
      (timeScheduleItem (some 5)
        ⟨1, "Opening", 0, 10, "Hall", [], none⟩).toScheduleItem.«end» :=
  (buildTimedSchedule_frame [⟨1, "Opening", 0, 10, "Hall", [], none⟩] (some 5)).2.2 _
    (by simp [buildTimedSchedule])

/-- If a first live index exists, `getActiveScheduleIndex` returns it. -/
theorem getActiveScheduleIndex_of_live {items : List TimedScheduleItem} {n : Int}
    {i : Nat} (hfind : items.findIdx? (fun it => it.status == .live) = some i) :
    getActiveScheduleIndex items (some n) = (i : Int) := by
  have hlen : i < items.length := (List.findIdx?_eq_some_iff_getElem.1 hfind).1
  have hne : items.isEmpty = false := by
    cases items
    · simp at hlen
    · rfl
  simp [getActiveScheduleIndex, hne, hfind]

/-- With no live item, the first index whose start is after `now` is
returned. -/
theorem getActiveScheduleIndex_of_future {items : List TimedScheduleItem} {n : Int}
    {i : Nat} (h1 : items.findIdx? (fun it => it.status == .live) = none)
    (h2 : items.findIdx? (fun it => decide (n < it.startDate)) = some i) :
    getActiveScheduleIndex items (some n) = (i : Int) := by
  have hlen : i < items.length := (List.findIdx?_eq_some_iff_getElem.1 h2).1
  have hne : items.isEmpty = false := by
    cases items
    · simp at hlen
    · rfl
  simp [getActiveScheduleIndex, hne, h1, h2]

/-- With no live item and no future start, the last index is returned. -/
theorem getActiveScheduleIndex_of_none {items : List TimedScheduleItem} {n : Int}
    (hne : items ≠ [])
    (h1 : items.findIdx? (fun it => it.status == .live) = none)
    (h2 : items.findIdx? (fun it => decide (n < it.startDate)) = none) :
    getActiveScheduleIndex items (some n) = (items.length : Int) - 1 := by
  have hem : items.isEmpty = false := by
    cases items
    · exact absurd rfl hne
    · rfl
  simp [getActiveScheduleIndex, hem, h1, h2]

/-- A list without live items has no first live index. -/
theorem findIdx_live_eq_none {items : List TimedScheduleItem}
    (h : ∀ t ∈ items, t.status ≠ .live) :
    items.findIdx? (fun it => it.status == .live) = none := by
  rw [List.findIdx?_eq_none_iff]
  intro x hx
  simpa using h x hx

/-- A list all of whose starts are at most `now` has no first future
index. -/
theorem findIdx_future_eq_none {items : List TimedScheduleItem} {n : Int}
    (h : ∀ t ∈ items, t.startDate ≤ n) :
    items.findIdx? (fun it => decide (n < it.startDate)) = none := by
  rw [List.findIdx?_eq_none_iff]
  intro x hx
  simpa using h x hx

/-- C4 (amended).  Active-index selection: the result is `-1` exactly
when the list is empty or `now` is unavailable; the index of the first
live item is returned when one exists; otherwise the index of the first
item whose start is after `now`; otherwise the last index — in particular
for a non-empty all-past list produced by the classifier from items whose
parsed start is at most their parsed end. -/
theorem getActiveScheduleIndex_spec :
    (∀ items now, getActiveScheduleIndex items now = -1 ↔
      items = [] ∨ now = none) ∧
    (∀ items (n : Int) (i : Nat) (h : i < items.length),
      (items.get ⟨i, h⟩).status = .live →
      (∀ j (hj : j < items.length), j < i → (items.get ⟨j, hj⟩).status ≠ .live) →
      getActiveScheduleIndex items (some n) = (i : Int)) ∧
    (∀ items (n : Int) (i : Nat) (h : i < items.length),
      (∀ t ∈ items, t.status ≠ .live) →
      n < (items.get ⟨i, h⟩).startDate →
      (∀ j (hj : j < items.length), j < i → ¬ n < (items.get ⟨j, hj⟩).startDate) →
      getActiveScheduleIndex items (some n) = (i : Int)) ∧
    (∀ items (n : Int), items ≠ [] → (∀ t ∈ items, t.status ≠ .live) →
      (∀ t ∈ items, t.startDate ≤ n) →
      getActiveScheduleIndex items (some n) = (items.length : Int) - 1) ∧
    (∀ schedule (n : Int), schedule ≠ [] →
      (∀ item ∈ schedule, item.start ≤ item.«end») →
      (∀ t ∈ buildTimedSchedule schedule (some n), t.status = .past) →
      getActiveScheduleIndex (buildTimedSchedule schedule (some n)) (some n) =
        ((buildTimedSchedule schedule (some n)).length : Int) - 1) := by
  refine ⟨?_, ?_, ?_, ?_, ?_⟩
  · intro items now
    constructor
    · intro heq
      cases now with
      | none => exact Or.inr rfl
      | some n =>
        refine Or.inl ?_
        by_contra hne
        have h0 : 0 ≤ getActiveScheduleIndex items (some n) := by
          cases h1 : items.findIdx? (fun it => it.status == .live) with
          | some i =>
            rw [getActiveScheduleIndex_of_live h1]
            exact Int.ofNat_nonneg i
          | none =>
            cases h2 : items.findIdx? (fun it => decide (n < it.startDate)) with
            | some i =>
              rw [getActiveScheduleIndex_of_future h1 h2]
              exact Int.ofNat_nonneg i
            | none =>
              rw [getActiveScheduleIndex_of_none hne h1 h2]
              have hlen : items.length ≠ 0 := by
                simpa [List.length_eq_zero] using hne
              omega
        rw [heq] at h0
        omega
    · rintro (rfl | rfl)
      · cases now <;> rfl
      · rfl
  · intro items n i h hlive hfirst
    apply getActiveScheduleIndex_of_live
    rw [List.findIdx?_eq_some_iff_getElem]
    refine ⟨h, ?_, ?_⟩
    · simp only [List.get_eq_getElem] at hlive
      simp [hlive]
    · intro j hji
      have hne := hfirst j (Nat.lt_trans hji h) hji
      simp only [List.get_eq_getElem] at hne
      simpa using hne
  · intro items n i h hnl hfut hfirst
    apply getActiveScheduleIndex_of_future (findIdx_live_eq_none hnl)
    rw [List.findIdx?_eq_some_iff_getElem]
    refine ⟨h, ?_, ?_⟩
    · simp only [List.get_eq_getElem] at hfut
      simpa using hfut
    · intro j hji
      have hle := hfirst j (Nat.lt_trans hji h) hji
      simp only [List.get_eq_getElem] at hle
      simpa using hle
  · intro items n hne hnl hle
    exact getActiveScheduleIndex_of_none hne (findIdx_live_eq_none hnl)
      (findIdx_future_eq_none hle)
  · intro schedule n hne hwf hpast
    have hne2 : buildTimedSchedule schedule (some n) ≠ [] := by
      have hl : (buildTimedSchedule schedule (some n)).length = schedule.length := by
        simp [buildTimedSchedule]
      intro hnil
      rw [hnil] at hl
      exact hne (List.length_eq_zero.1 hl.symm)
    have hnl : ∀ t ∈ buildTimedSchedule schedule (some n), t.status ≠ .live := by
      intro t ht
      rw [hpast t ht]
      decide
    have hle : ∀ t ∈ buildTimedSchedule schedule (some n), t.startDate ≤ n := by
      intro t ht
      have hp := hpast t ht
      obtain ⟨item, hitem, rfl⟩ := mem_buildTimedSchedule ht
      have hend : item.«end» ≤ n := by
        by_contra hend
        have hnp : (timeScheduleItem (some n) item).status ≠ .past := by
          simp only [timeScheduleItem, if_neg hend]
          split <;> decide
        exact hnp hp
      have hse := hwf item hitem
      simp only [timeScheduleItem]
      omega
    exact getActiveScheduleIndex_of_none hne2 (findIdx_live_eq_none hnl)
      (findIdx_future_eq_none hle)

/-- A schedule refuting the all-past parenthetical of the active-index
claim: with `now = 5` every item classifies as `past` (each `end ≤ 5`),
yet the middle item's start (`10`) lies after `now`, so the
first-future-start rule fires before the last-index fallback. -/
def c4CounterSchedule : List ScheduleItem :=
  [⟨1, "B", 0, 1, "Hall", [], none⟩,
   ⟨2, "A", 10, 0, "Hall", [], none⟩,
   ⟨3, "C", 20, 3, "Hall", [], none⟩]

unseal List.merge List.mergeSort in
/-- At `c4CounterSchedule` and `now = 5`, the classifier output is
non-empty and all-past, but the active index is `1`, not the last index
`2`: the unqualified all-past parenthetical of the claim is false. -/
theorem getActiveScheduleIndex_allPast_counterexample :
    ((buildTimedSchedule c4CounterSchedule (some 5)).all
      (fun t => t.status == .past)) = true ∧
    (buildTimedSchedule c4CounterSchedule (some 5)).length = 3 ∧
    getActiveScheduleIndex (buildTimedSchedule c4CounterSchedule (some 5)) (some 5) = 1 ∧
    ((buildTimedSchedule c4CounterSchedule (some 5)).length : Int) - 1 = 2 := by
  decide

/-- A non-empty all-past schedule with well-formed intervals. -/
def c4WitnessSchedule : List ScheduleItem :=
  [⟨1, "B", 0, 1, "Hall", [], none⟩,
   ⟨2, "A", 2, 3, "Hall", [], none⟩]

unseal List.merge List.mergeSort in
/-- Concrete instance of `getActiveScheduleIndex_spec`: on a non-empty
all-past well-formed schedule the active index is the last index. -/
theorem getActiveScheduleIndex_spec_witness :
    getActiveScheduleIndex (buildTimedSchedule c4WitnessSchedule (some 5)) (some 5) =
      ((buildTimedSchedule c4WitnessSchedule (some 5)).length : Int) - 1 :=
  getActiveScheduleIndex_spec.2.2.2.2 c4WitnessSchedule 5 (by decide) (by decide)
    (by decide)

/-- C5.  The displayed schedule is exactly the suffix of the
status-tagged list starting at the first non-past item: an all-past list
displays nothing, and once a non-past item is reached the whole remaining
suffix is kept, past items included. -/
theorem visibleItems_spec :
    (∀ items, (∀ t ∈ items, t.status = .past) → visibleItems items = []) ∧
    (∀ pre x suf, (∀ t ∈ pre, t.status = .past) → x.status ≠ .past →
      visibleItems (pre ++ x :: suf) = x :: suf) := by
  constructor
  · intro items h
    have hf : items.findIdx? (fun it => it.status != .past) = none :=
      List.findIdx?_eq_none_iff.2 (fun t ht => by simp [h t ht])
    simp [visibleItems, hf]
  · intro pre x suf hpre hx
    have hpre0 : pre.findIdx? (fun it => it.status != .past) = none :=
      List.findIdx?_eq_none_iff.2 (fun t ht => by simp [hpre t ht])
    have hx0 : (x :: suf).findIdx? (fun it => it.status != .past) = some 0 := by
      simp [List.findIdx?_cons, hx]
    have hf : (pre ++ x :: suf).findIdx? (fun it => it.status != .past) =
        some pre.length := by
      rw [List.findIdx?_append, hpre0, hx0]
      simp
    simp [visibleItems, hf, List.drop_left]

/-- Concrete instance of `visibleItems_spec`: a leading past item is
dropped, while a past item behind the live one is kept. -/
theorem visibleItems_spec_witness :
    visibleItems
      [⟨⟨1, "a", 0, 1, "H", [], none⟩, 0, 1, .past⟩,
       ⟨⟨2, "b", 2, 9, "H", [], none⟩, 2, 9, .live⟩,
       ⟨⟨3, "c", 3, 4, "H", [], none⟩, 3, 4, .past⟩] =
      [⟨⟨2, "b", 2, 9, "H", [], none⟩, 2, 9, .live⟩,
       ⟨⟨3, "c", 3, 4, "H", [], none⟩, 3, 4, .past⟩] :=
  visibleItems_spec.2 [⟨⟨1, "a", 0, 1, "H", [], none⟩, 0, 1, .past⟩]
    ⟨⟨2, "b", 2, 9, "H", [], none⟩, 2, 9, .live⟩
    [⟨⟨3, "c", 3, 4, "H", [], none⟩, 3, 4, .past⟩] (by decide) (by decide)

/-- C6 (amended).  When all five fetches reject, the per-resource
`.catch` handlers absorb every failure, so the aggregate promise fulfils
with the all-defaults snapshot: no error is logged, loading resolves, and
the snapshot is replaced by `emptyTvData` — not retained.  The last-known
snapshot is retained, with an error logged, only when the aggregation
itself throws. -/
theorem loadCycle_total_rejection :
    ∀ st : TvState,
      loadCycle st false (pollOutcome .err .err .err .err .err) =
        ({ data := emptyTvData, isLoading := false }, false) ∧
      loadCycle st false (.error ()) = ({ st with isLoading := false }, true) :=
  fun _ => ⟨rfl, rfl⟩

/-- A non-default previous snapshot. -/
def c6PrevData : TvData :=
  { sponsors := [⟨1, "ACME", .root, "https://acme.example", "logo"⟩],
    schedule := [], wifi := none, hacking := none, announcement := none }

/-- At a concrete non-default previous snapshot, a poll cycle in which all
five fetches reject replaces the displayed data (it is not retained) and
logs no error, refuting the claim's failure behaviour. -/
theorem loadCycle_total_rejection_counterexample :
    (loadCycle ⟨c6PrevData, false⟩ false
      (pollOutcome .err .err .err .err .err)).1.data ≠ c6PrevData ∧
    (loadCycle ⟨c6PrevData, false⟩ false
      (pollOutcome .err .err .err .err .err)).2 = false := by
  decide

/-- C7.  Each of the five fetches independently substitutes its safe
default on rejection (`[]` for the collections, `null` for the
singletons); in particular a rejected wifi fetch alongside four successes
yields `wifi = null` with the other four fields populated. -/
theorem fetchTvData_per_resource :
    (∀ o2 o3 o4 o5, (fetchTvData .err o2 o3 o4 o5).sponsors = []) ∧
    (∀ o1 o3 o4 o5, (fetchTvData o1 .err o3 o4 o5).schedule = []) ∧
    (∀ o1 o2 o4 o5, (fetchTvData o1 o2 .err o4 o5).wifi = none) ∧
    (∀ o1 o2 o3 o5, (fetchTvData o1 o2 o3 .err o5).hacking = none) ∧
    (∀ o1 o2 o3 o4, (fetchTvData o1 o2 o3 o4 .err).announcement = none) ∧
    (∀ s sch h a,
      fetchTvData (.ok (some s)) (.ok (some sch)) .err (.ok (some h)) (.ok (some a)) =
        { sponsors := s, schedule := sch, wifi := none, hacking := some h,
          announcement := some a }) :=
  ⟨fun _ _ _ _ => rfl, fun _ _ _ _ => rfl, fun _ _ _ _ => rfl, fun _ _ _ _ => rfl,
   fun _ _ _ _ => rfl, fun _ _ _ _ => rfl⟩

/-- C8.  The sponsor partition: the three filtered tiers contain
exactly the sponsors of their level in input order (as sublists of the
input), the main sponsor is the first root-level sponsor, and a second
root-level record appears in none of the four groups. -/
theorem sponsorPartition_spec :
    (∀ l x, x ∈ secondarySponsors l ↔ x ∈ l ∧ x.level = .admin) ∧
    (∀ l x, x ∈ thirdTierSponsors l ↔ x ∈ l ∧ x.level = .user) ∧
    (∀ l x, x ∈ collaboratorSponsors l ↔ x ∈ l ∧ x.level = .collaborator) ∧
    (∀ l, (secondarySponsors l).Sublist l ∧ (thirdTierSponsors l).Sublist l ∧
      (collaboratorSponsors l).Sublist l) ∧
    (∀ l x, mainSponsor l = some x → x ∈ l ∧ x.level = .root) ∧
    (∀ pre x suf, x.level = .root → (∀ y ∈ pre, y.level ≠ .root) →
      mainSponsor (pre ++ x :: suf) = some x) ∧
    (∀ l x y, mainSponsor l = some x → y ≠ x → y.level = .root →
      mainSponsor l ≠ some y ∧ y ∉ secondarySponsors l ∧
      y ∉ thirdTierSponsors l ∧ y ∉ collaboratorSponsors l) := by
  refine ⟨?_, ?_, ?_, ?_, ?_, ?_, ?_⟩
  · intro l x
    simp [secondarySponsors, List.mem_filter]
  · intro l x
    simp [thirdTierSponsors, List.mem_filter]
  · intro l x
    simp [collaboratorSponsors, List.mem_filter]
  · intro l
    exact ⟨List.filter_sublist l, List.filter_sublist l, List.filter_sublist l⟩
  · intro l x h
    exact ⟨List.mem_of_find?_eq_some h, by simpa using List.find?_some h⟩
  · intro pre x suf hx
    induction pre with
    | nil =>
      intro _
      simp [mainSponsor, hx]
    | cons y ys ih =>
      intro hpre
      show (y :: (ys ++ x :: suf)).find? (fun s => s.level == .root) = some x
      rw [List.find?_cons_of_neg]
      · exact ih (fun z hz => hpre z (by simp [hz]))
      · simpa using hpre y (by simp)
  · intro l x y hmain hne hy
    refine ⟨?_, ?_, ?_, ?_⟩
    · intro hc
      rw [hmain] at hc
      exact hne (Option.some.inj hc).symm
    · simp [secondarySponsors, List.mem_filter, hy]
    · simp [thirdTierSponsors, List.mem_filter, hy]
    · simp [collaboratorSponsors, List.mem_filter, hy]

/-- A sponsor list with two root-level records. -/
def c8Sponsors : List Sponsor :=
  [⟨1, "Root1", .root, "", "l1"⟩, ⟨2, "Root2", .root, "", "l2"⟩,
   ⟨3, "Sec", .admin, "", "l3"⟩]

/-- Concrete instance of `sponsorPartition_spec`: with two root-level
records, only the first is the main sponsor and the second lands in no
group. -/
theorem sponsorPartition_spec_witness :
    mainSponsor c8Sponsors = some ⟨1, "Root1", .root, "", "l1"⟩ ∧
    mainSponsor c8Sponsors ≠ some ⟨2, "Root2", .root, "", "l2"⟩ ∧
    (⟨2, "Root2", .root, "", "l2"⟩ : Sponsor) ∉ secondarySponsors c8Sponsors ∧
    (⟨2, "Root2", .root, "", "l2"⟩ : Sponsor) ∉ thirdTierSponsors c8Sponsors ∧
    (⟨2, "Root2", .root, "", "l2"⟩ : Sponsor) ∉ collaboratorSponsors c8Sponsors := by
  have hmain : mainSponsor c8Sponsors = some ⟨1, "Root1", .root, "", "l1"⟩ :=
    sponsorPartition_spec.2.2.2.2.2.1 [] ⟨1, "Root1", .root, "", "l1"⟩
      [⟨2, "Root2", .root, "", "l2"⟩, ⟨3, "Sec", .admin, "", "l3"⟩] rfl (by simp)
  have hdrop := sponsorPartition_spec.2.2.2.2.2.2 c8Sponsors
    ⟨1, "Root1", .root, "", "l1"⟩ ⟨2, "Root2", .root, "", "l2"⟩ hmain (by decide) rfl
  exact ⟨hmain, hdrop.1, hdrop.2.1, hdrop.2.2.1, hdrop.2.2.2⟩

/-- C9.  The asset-URL resolver: an absent or empty identifier yields
`""`; identifier `"abc"` against base `"https://cms.example/"` yields
`"https://cms.example/assets/abc"`; and whenever URL construction fails it
falls back to naive concatenation of the base (one trailing slash
stripped) with `"/assets/"` and the identifier — so every input has a
defined result. -/
theorem getAssetUrl_spec :
    (∀ base, getAssetUrl base none = "") ∧
    (∀ base, getAssetUrl base (some "") = "") ∧
    getAssetUrl "https://cms.example/" (some "abc") =
      "https://cms.example/assets/abc" ∧
    (∀ base i, i ≠ "" → newURL ("/assets/" ++ i) base = none →
      getAssetUrl base (some i) = stripTrailingSlash base ++ "/assets/" ++ i) := by
  refine ⟨fun base => rfl, fun base => ?_, by decide, ?_⟩
  · simp [getAssetUrl]
  · intro base i hne hurl
    simp [getAssetUrl, hne, hurl]

/-- Concrete instance of `getAssetUrl_spec`: an unparseable base falls
back to naive concatenation. -/
theorem getAssetUrl_spec_witness :
    getAssetUrl "not a url" (some "abc") =
      stripTrailingSlash "not a url" ++ "/assets/" ++ "abc" :=
  getAssetUrl_spec.2.2.2 "not a url" "abc" (by decide) (by decide)

end HackUDC
